import Mathlib

/-!
# Verification of `play_and_record.py`

Shallow embedding of the repository `play_and_rec` (file `play_and_record.py`)
in Lean 4, together with theorems settling the specification claims.

Modelling conventions:
* Audio samples are modelled as exact rationals `ℚ`; a floating-point value
  that may be non-finite (NaN / infinity, produced by division by zero in
  numpy) is modelled as `Option ℚ`, where `none` stands for a non-finite value.
* Paths and filenames are modelled as `List Char` (Python `str`).
* External collaborators (the WAV codec `read`, the duplex device
  `sd.playrec`, the filesystem walk `os.walk`, the directory predicate
  `os.path.isdir`) are modelled as explicit inputs: `read`'s result is the
  pair `(fs, pb_samples)` handed to `play_and_rec`, the device is an abstract
  function from the padded playback buffer to the recorded buffer, and
  `os.walk`'s output is a list of `(root, directories, filenames)` entries.
* Pure-Python / numpy library functions used by the code (`str.replace`,
  `str.endswith`, `os.path.join`, `os.path.dirname`, `np.pad`, `np.argmax`,
  `round`, `os.makedirs`) are embedded faithfully below.
-/

namespace PlayAndRec

/-! ## numpy / Python numeric primitives -/

/-- numpy elementwise scalar division on floats, abstracted over exact
rationals: division by zero yields a non-finite value (`none`), any other
division is exact.  A non-finite numerator propagates. -/
def npDiv (a : Option ℚ) (b : ℚ) : Option ℚ :=
  match a with
  | none => none
  | some x => if b = 0 then none else some (x / b)

/-- numpy `ndarray.max()` : maximum element of an array; numpy raises
`ValueError` on an empty array, modelled by `none`. -/
def npMax : List ℚ → Option ℚ
  | [] => none
  | x :: xs => some (xs.foldl max x)

/-- `np.pad(xs, (0, n), mode='constant', constant_values=0)` specialised to
appending `n` copies of the constant `v` at the end. -/
def npPad (xs : List α) (n : ℕ) (v : α) : List α :=
  xs ++ List.replicate n v

/-- Python `round(0.5 * fs)` for an integer sampling rate `fs`.
`0.5 * fs` is computed exactly in binary floating point, so `round` sees the
exact value `fs / 2`; Python `round` uses round-half-to-even, so for odd `fs`
the tie `fs / 2 + 1/2` rounds to the even neighbour. -/
def halfRound (fs : ℕ) : ℕ :=
  if fs % 2 = 0 then fs / 2
  else if (fs / 2) % 2 = 0 then fs / 2 else fs / 2 + 1

/-- The noise-floor threshold `eps = 3 * 1.0/(2**15)` from the source. -/
def eps : ℚ := 3 * (1 / 2 ^ 15)

/-- `np.argmax(abs(rec_samples) > eps)` : index of the first sample whose
absolute value strictly exceeds `eps`; on an all-`False` boolean array
`np.argmax` returns `0`, and on an empty array it raises `ValueError`. -/
def npArgmaxGt (xs : List ℚ) : Except String ℕ :=
  if xs = [] then
    Except.error "ValueError: attempt to get argmax of an empty sequence"
  else
    Except.ok (match xs.findIdx? (fun x => decide (eps < |x|)) with
      | some i => i
      | none => 0)

/-! ## Python string / path primitives -/

/-- Recursion core of Python `str.replace` for a nonempty pattern: scan left
to right, replacing each non-overlapping occurrence of `old` by `new`.  The
fuel argument is initialised to the length of the string; each step consumes
at least one character when `old` is nonempty. -/
def pyReplaceGo : ℕ → List Char → List Char → List Char → List Char
  | 0, s, _, _ => s
  | n + 1, s, old, new =>
    match s with
    | [] => []
    | c :: rest =>
      if old.isPrefixOf (c :: rest) then
        new ++ pyReplaceGo n ((c :: rest).drop old.length) old new
      else
        c :: pyReplaceGo n rest old new

/-- Python `s.replace(old, new)` : replaces every non-overlapping occurrence
of `old` in `s` by `new`, scanning left to right.  For the empty pattern,
Python inserts `new` before every character and at the end. -/
def pyReplace (s old new : List Char) : List Char :=
  if old = [] then new ++ (s.map (fun c => c :: new)).flatten
  else pyReplaceGo s.length s old new

/-- Python `s.endswith(suffix)` : case-sensitive suffix test. -/
def pyEndswith (s suffix : List Char) : Bool :=
  suffix.isSuffixOf s

/-- `os.path.join(a, b)` (posixpath, two arguments): if `b` is absolute it
replaces `a`; otherwise a separator is inserted unless `a` is empty or
already ends with one. -/
def os_path_join (a b : List Char) : List Char :=
  match b with
  | '/' :: _ => b
  | _ =>
    if a = [] ∨ a.getLast? = some '/' then a ++ b
    else a ++ '/' :: b

/-- Position just after the last `'/'` in the string (`rfind('/') + 1`),
or `0` when there is no slash. -/
def rfindSlashSucc : List Char → ℕ
  | [] => 0
  | c :: rest =>
    let r := rfindSlashSucc rest
    if r = 0 then (if c = '/' then 1 else 0) else r + 1

/-- Drop trailing `'/'` characters. -/
def rstripSlash (l : List Char) : List Char :=
  (l.reverse.dropWhile (fun c => c = '/')).reverse

/-- `os.path.dirname(p)` (posixpath): the text before the final `'/'`, with
trailing separators stripped unless the head consists only of separators. -/
def os_path_dirname (p : List Char) : List Char :=
  let head := p.take (rfindSlashSucc p)
  if head.isEmpty || head.all (fun c => c = '/') then head
  else rstripSlash head

/-- `os.path.isdir` is a property of the ambient filesystem, modelled as an
abstract predicate on paths. -/
def IsdirPred := List Char → Bool

/-- `os.makedirs(path)` : creates `path` and its ancestors.  Called on the
empty string it raises `FileNotFoundError` (POSIX: no such file or
directory); otherwise it succeeds (other failure modes such as permission
errors are outside this model). -/
def makedirs (path : List Char) : Except String Unit :=
  if path = [] then
    Except.error "FileNotFoundError: [Errno 2] No such file or directory"
  else Except.ok ()

/-! ## `play_and_rec` (source lines 15-43) -/

/-- Lines 27-28: `if normalise: pb_samples = pb_samples/(0.8 * pb_samples.max())`
with the maximum `m` already extracted from `pb_samples.max()`. -/
def normaliseWith (m : ℚ) (xs : List ℚ) : List (Option ℚ) :=
  xs.map (fun x => npDiv (some x) (4 / 5 * m))

/-- The normalisation branch of `play_and_rec`: on `normalise = true` divide
by `0.8 * pb_samples.max()` (a `ValueError` from `.max()` on an empty array
becomes an `Except.error`); on `normalise = false` the samples pass through
(each finite). -/
def normaliseStep (normalise : Bool) (xs : List ℚ) : Except String (List (Option ℚ)) :=
  if normalise then
    match npMax xs with
    | none => Except.error "ValueError: zero-size array to reduction operation maximum"
    | some m => Except.ok (normaliseWith m xs)
  else Except.ok (xs.map some)

/-- Lines 32-34: latency removal — drop everything before the first sample
whose absolute value exceeds `eps` (a `ValueError` from `np.argmax` on an
empty recording propagates). -/
def trimLatency (xs : List ℚ) : Except String (List ℚ) :=
  match npArgmaxGt xs with
  | Except.error e => Except.error e
  | Except.ok ind => Except.ok (xs.drop ind)

/-- Line 31/34: `if rm_latency: rec_samples = rec_samples[ind:]`. -/
def trimStep (rm_latency : Bool) (xs : List ℚ) : Except String (List ℚ) :=
  if rm_latency then trimLatency xs else Except.ok xs

/-- Lines 35-37: compute `os.path.dirname` of the output file and create it
when `os.path.isdir` does not recognise it as an existing directory. -/
def ensureOutputDir (isdir : IsdirPred) (rec_wav_fname : List Char) :
    Except String Unit :=
  let output_path := os_path_dirname rec_wav_fname
  if isdir output_path then Except.ok () else makedirs output_path

/-- The observable outcome of a successful `play_and_rec` call: the list of
`(path, sampling rate, samples)` WAV files written by `scipy.io.wavfile.write`
and the returned tuple `(rec_samples, pb_samples, fs)`. -/
structure PRResult where
  written : List (List Char × ℕ × List ℚ)
  ret : List ℚ × List (Option ℚ) × ℕ
  deriving DecidableEq, Repr

/-- `play_and_rec` (lines 15-43).  The result of `read(pb_wav_fname)` is the
pair `(fs, pb_samples)`; the duplex device `sd.playrec` is the abstract
function `device` from the padded playback buffer to the recorded buffer;
`isdir` is the ambient filesystem's `os.path.isdir`.  `show_plots` only
drives the diagnostic plotter and has no effect on the result.  A Python
exception is an `Except.error`. -/
def play_and_rec (fs : ℕ) (pb_samples : List ℚ) (rec_wav_fname : List Char)
    (normalise rm_latency : Bool) (device : List (Option ℚ) → List ℚ)
    (isdir : IsdirPred) : Except String PRResult :=
  match normaliseStep normalise pb_samples with
  | Except.error e => Except.error e
  | Except.ok pb =>
    let pb_samples_padded := npPad pb (halfRound fs) (some 0)
    let rec_samples := device pb_samples_padded
    match trimStep rm_latency rec_samples with
    | Except.error e => Except.error e
    | Except.ok rec_trimmed =>
      match ensureOutputDir isdir rec_wav_fname with
      | Except.error e => Except.error e
      | Except.ok _ =>
        Except.ok ⟨[(rec_wav_fname, fs, rec_trimmed)], (rec_trimmed, pb, fs)⟩

/-! ## `get_wavfiles` (source lines 58-75) -/

/-- One `(root, directories, filenames)` entry yielded by `os.walk`. -/
structure WalkEntry where
  root : List Char
  dirs : List (List Char)
  filenames : List (List Char)
  deriving DecidableEq, Repr

/-- Line 69's filter: `f.endswith(".WAV") or f.endswith(".wav")`. -/
def isWavName (f : List Char) : Bool :=
  pyEndswith f ".WAV".data || pyEndswith f ".wav".data

/-- The `(in_file, out_file)` pair built for a file `f` found under `root`
(lines 70-73): `in_file = os.path.join(root, f)` and
`out_file = os.path.join(root.replace(input_dir, output_dir), f)`. -/
def mkPair (input_dir output_dir root f : List Char) : List Char × List Char :=
  (os_path_join root f, os_path_join (pyReplace root input_dir output_dir) f)

/-- `get_wavfiles(input_dir, output_dir)` (lines 58-75), with the output of
`os.walk(input_dir)` supplied as the list `walk`.  Mirrors the Python loop:
an accumulator list to which each matching file appends its pair. -/
def get_wavfiles (input_dir output_dir : List Char) (walk : List WalkEntry) :
    List (List Char × List Char) :=
  walk.foldl (fun acc e =>
    (e.filenames.filter isWavName).foldl (fun acc2 f =>
      acc2 ++ [mkPair input_dir output_dir e.root f]) acc) []

/-! ## Helper lemmas -/

lemma findIdx?_eq_some_of_first (p : α → Bool) :
    ∀ (xs : List α) (k : ℕ) (hk : k < xs.length),
      p (xs.get ⟨k, hk⟩) = true →
      (∀ j (hj : j < k), p (xs.get ⟨j, hj.trans hk⟩) = false) →
      xs.findIdx? p = some k := by
  intro xs
  induction xs with
  | nil => intro k hk _ _; simp at hk
  | cons a t ih =>
    intro k hk hpk hpj
    cases k with
    | zero =>
      rw [List.findIdx?_cons]
      simp only [List.get] at hpk
      simp [hpk]
    | succ j =>
      have ha : p a = false := hpj 0 (Nat.succ_pos j)
      have hj' : j < t.length := Nat.lt_of_succ_lt_succ hk
      have hrec : t.findIdx? p = some j := by
        refine ih j hj' ?_ ?_
        · simpa using hpk
        · intro i hi
          simpa using hpj (i + 1) (Nat.succ_lt_succ hi)
      rw [List.findIdx?_cons, ha]
      simp [List.findIdx?_succ, hrec]

lemma npArgmaxGt_of_first (xs : List ℚ) (k : ℕ) (hk : k < xs.length)
    (h1 : eps < |xs.get ⟨k, hk⟩|)
    (h2 : ∀ j (hj : j < k), ¬ eps < |xs.get ⟨j, hj.trans hk⟩|) :
    npArgmaxGt xs = Except.ok k := by
  have hne : xs ≠ [] :=
    List.length_pos.mp (Nat.lt_of_le_of_lt (Nat.zero_le k) hk)
  have hfind : xs.findIdx? (fun x => decide (eps < |x|)) = some k := by
    refine findIdx?_eq_some_of_first _ xs k hk ?_ ?_
    · simpa using h1
    · intro j hj
      simpa using h2 j hj
  simp [npArgmaxGt, hne, hfind]

lemma npArgmaxGt_of_small (xs : List ℚ) (hne : xs ≠ []) (h : ∀ x ∈ xs, |x| ≤ eps) :
    npArgmaxGt xs = Except.ok 0 := by
  have hfind : xs.findIdx? (fun x => decide (eps < |x|)) = none := by
    refine List.findIdx?_eq_none_iff.mpr ?_
    intro x hx
    simpa using not_lt.mpr (h x hx)
  simp [npArgmaxGt, hne, hfind]

/-! ## Claims C4, C5, C6 -/

/-- Claim C4: for every recorded buffer in which the sample at index `k` is
the first whose absolute value exceeds `eps = 3/2^15`, latency trimming
returns exactly the input buffer sliced from index `k` onward, of length
`original_length - k`. -/
theorem C4_trim_at_first_exceedance (xs : List ℚ) (k : ℕ) (hk : k < xs.length)
    (h1 : eps < |xs.get ⟨k, hk⟩|)
    (h2 : ∀ j (hj : j < k), ¬ eps < |xs.get ⟨j, hj.trans hk⟩|) :
    trimLatency xs = Except.ok (xs.drop k) ∧ (xs.drop k).length = xs.length - k := by
  have hind : npArgmaxGt xs = Except.ok k := npArgmaxGt_of_first xs k hk h1 h2
  constructor
  · rw [trimLatency, hind]
  · rw [List.length_drop]

/-- Witness for C4 at the concrete buffer `[0, 1]`, where index 1 holds the
first sample exceeding the noise floor. -/
theorem C4_witness :
    trimLatency [(0 : ℚ), 1] = Except.ok ([(0 : ℚ), 1].drop 1) ∧
      ([(0 : ℚ), 1].drop 1).length = [(0 : ℚ), 1].length - 1 := by
  refine C4_trim_at_first_exceedance [(0 : ℚ), 1] 1 (by norm_num) ?_ ?_
  · show eps < |(1 : ℚ)|
    rw [eps]; norm_num
  · intro j hj
    interval_cases j
    show ¬ eps < |(0 : ℚ)|
    rw [eps]; norm_num

/-- Counterexample to claim C5: the claim quantifies over every recorded
buffer whose samples all have absolute value at most `eps` — the empty
buffer satisfies this vacuously — and asserts that latency trimming returns
the buffer unmodified and that this case is not an error.  On the empty
recording `np.argmax` raises `ValueError`, so trimming errors instead of
returning the buffer. -/
theorem C5_counterexample :
    (∀ x ∈ ([] : List ℚ), |x| ≤ eps) ∧
      trimLatency ([] : List ℚ) =
        Except.error "ValueError: attempt to get argmax of an empty sequence" := by
  constructor
  · intro x hx
    exact absurd hx (List.not_mem_nil x)
  · rfl

/-- Claim C5, amended: for every nonempty recorded buffer in which every
sample's absolute value is at most `eps = 3/2^15`, latency trimming returns
the buffer unmodified (the computed trim index is 0) and this case is not an
error; on the empty buffer `np.argmax` raises `ValueError` instead. -/
theorem C5_amended_no_exceedance_no_trim (xs : List ℚ) (hne : xs ≠ [])
    (h : ∀ x ∈ xs, |x| ≤ eps) :
    npArgmaxGt xs = Except.ok 0 ∧ trimLatency xs = Except.ok xs := by
  have h0 : npArgmaxGt xs = Except.ok 0 := npArgmaxGt_of_small xs hne h
  refine ⟨h0, ?_⟩
  rw [trimLatency, h0]
  simp

/-- Witness for the amended C5 at the concrete all-quiet buffer `[0]`. -/
theorem C5_witness :
    npArgmaxGt [(0 : ℚ)] = Except.ok 0 ∧
      trimLatency [(0 : ℚ)] = Except.ok [(0 : ℚ)] := by
  refine C5_amended_no_exceedance_no_trim [(0 : ℚ)] (by simp) ?_
  intro x hx
  rw [List.mem_singleton] at hx
  subst hx
  rw [eps]; norm_num

/-- Claim C6: for every sampling rate `fs` and every playback buffer of
length `L` (the buffer `play_and_rec` pads and hands to `sd.playrec`), the
padded buffer has length `L + round(0.5*fs)` — `halfRound fs` in this
embedding — with the appended samples all zero. -/
theorem C6_padding_length (fs : ℕ) (xs : List (Option ℚ)) :
    (npPad xs (halfRound fs) (some (0 : ℚ))).length = xs.length + halfRound fs ∧
      (npPad xs (halfRound fs) (some (0 : ℚ))).drop xs.length =
        List.replicate (halfRound fs) (some (0 : ℚ)) := by
  constructor
  · simp [npPad]
  · simp [npPad, List.drop_left]

/-! ## Normalisation lemmas -/

lemma foldl_max_div (c : ℚ) (hc : 0 ≤ c) :
    ∀ (t : List ℚ) (a : ℚ),
      (t.map (fun x => x / c)).foldl max (a / c) = (t.foldl max a) / c := by
  intro t
  induction t with
  | nil => intro a; rfl
  | cons b t ih =>
    intro a
    simp only [List.map_cons, List.foldl_cons]
    rw [max_div_div_right hc a b, ih]

lemma npMax_map_div (xs : List ℚ) (c : ℚ) (hc : 0 ≤ c) (m : ℚ)
    (hm : npMax xs = some m) :
    npMax (xs.map (fun x => x / c)) = some (m / c) := by
  cases xs with
  | nil => simp [npMax] at hm
  | cons a t =>
    simp only [npMax, Option.some.injEq] at hm
    simp only [List.map_cons, npMax, Option.some.injEq]
    rw [foldl_max_div c hc t a, hm]

lemma foldl_max_zero : ∀ (t : List ℚ), (∀ x ∈ t, x = 0) → t.foldl max 0 = 0 := by
  intro t
  induction t with
  | nil => intro _; rfl
  | cons a t ih =>
    intro h
    have ha : a = 0 := h a (List.mem_cons_self a t)
    simp only [List.foldl_cons, ha, max_self]
    exact ih (fun x hx => h x (List.mem_cons_of_mem a hx))

lemma npMax_all_zero (xs : List ℚ) (hne : xs ≠ []) (hz : ∀ x ∈ xs, x = 0) :
    npMax xs = some 0 := by
  cases xs with
  | nil => exact absurd rfl hne
  | cons a t =>
    have ha : a = 0 := hz a (List.mem_cons_self a t)
    simp only [npMax, Option.some.injEq, ha]
    exact foldl_max_zero t (fun x hx => hz x (List.mem_cons_of_mem a hx))

lemma normaliseWith_of_ne_zero (m : ℚ) (hm : m ≠ 0) (xs : List ℚ) :
    normaliseWith m xs = xs.map (fun x => some (x / (4 / 5 * m))) := by
  have hc : (4 / 5 : ℚ) * m ≠ 0 := mul_ne_zero (by norm_num) hm
  simp [normaliseWith, npDiv, hc]

lemma play_and_rec_eq_of_normalise (fs : ℕ) (pb_samples : List ℚ)
    (rec_wav_fname : List Char) (normalise rm_latency : Bool)
    (device : List (Option ℚ) → List ℚ) (isdir : IsdirPred)
    (pb : List (Option ℚ))
    (hn : normaliseStep normalise pb_samples = Except.ok pb) :
    play_and_rec fs pb_samples rec_wav_fname normalise rm_latency device isdir =
      match trimStep rm_latency (device (npPad pb (halfRound fs) (some 0))) with
      | Except.error e => Except.error e
      | Except.ok rec_trimmed =>
        match ensureOutputDir isdir rec_wav_fname with
        | Except.error e => Except.error e
        | Except.ok _ =>
          Except.ok ⟨[(rec_wav_fname, fs, rec_trimmed)], (rec_trimmed, pb, fs)⟩ := by
  rw [play_and_rec, hn]

/-! ## Claims C3, C1, C8 -/

/-- Claim C3: when normalisation is enabled, every output sample equals the
corresponding input sample divided by `0.8 * max(input)` (here `4/5 * m`
with `m` the maximum), for every playback buffer whose maximum is nonzero:
the normalisation step maps `x` to `x / (4/5 * m)` pointwise. -/
theorem C3_normalise_pointwise (xs : List ℚ) (m : ℚ)
    (hm : npMax xs = some m) (h0 : m ≠ 0) :
    normaliseStep true xs = Except.ok (xs.map (fun x => some (x / (4 / 5 * m)))) := by
  simp only [normaliseStep, if_pos, hm]
  rw [normaliseWith_of_ne_zero m h0 xs]

/-- Witness for C3 at the concrete one-sample buffer `[1]`, whose maximum
is `1`. -/
theorem C3_witness :
    npMax [(1 : ℚ)] = some 1 ∧
      normaliseStep true [(1 : ℚ)] =
        Except.ok ([(1 : ℚ)].map (fun x => some (x / (4 / 5 * 1)))) :=
  ⟨rfl, C3_normalise_pointwise [(1 : ℚ)] 1 rfl one_ne_zero⟩

/-- Counterexample to claim C1: the claim predicts that after normalisation
the maximum absolute sample equals `0.8`.  On the buffer `[1]` (peak
amplitude `1 ≠ 0`) the code divides by `0.8 * max = 4/5`, so the single
resulting sample is `5/4 = 1.25`, and `5/4 ≠ 4/5` (far beyond any
floating-point tolerance). -/
theorem C1_counterexample :
    normaliseStep true [(1 : ℚ)] = Except.ok [some (5 / 4 : ℚ)] ∧
      (5 / 4 : ℚ) ≠ 4 / 5 := by
  constructor
  · have hmax : npMax [(1 : ℚ)] = some 1 := rfl
    simp only [normaliseStep, if_pos, hmax, normaliseWith, npDiv, List.map_cons,
      List.map_nil]
    norm_num
  · norm_num

/-- Claim C1, amended: for every playback buffer whose maximum (signed)
sample value `m` is positive, after normalisation every sample is finite and
the maximum sample value of the resulting buffer equals `1.25 = 1/0.8`, not
`0.8`: the code divides by `0.8 * max`, so the peak maps to `1/0.8`.  (When
the peak amplitude is attained at a negative sample, the maximum absolute
value of the result can exceed `1.25`.) -/
theorem C1_amended_peak_is_1_25 (xs : List ℚ) (m : ℚ)
    (hm : npMax xs = some m) (h0 : 0 < m) :
    normaliseStep true xs =
        Except.ok ((xs.map (fun x => x / (4 / 5 * m))).map some) ∧
      npMax (xs.map (fun x => x / (4 / 5 * m))) = some (5 / 4) := by
  have hc : (0 : ℚ) ≤ 4 / 5 * m := by positivity
  constructor
  · simp only [normaliseStep, if_pos, hm]
    rw [normaliseWith_of_ne_zero m (ne_of_gt h0) xs, List.map_map]
    rfl
  · rw [npMax_map_div xs (4 / 5 * m) hc m hm]
    congr 1
    rw [show (4 / 5 : ℚ) * m = m * (4 / 5) by ring, div_mul_eq_div_div,
      div_self (ne_of_gt h0)]
    norm_num

/-- Witness for the amended C1 at the concrete buffer `[1]`. -/
theorem C1_witness :
    npMax [(1 : ℚ)] = some 1 ∧
      (normaliseStep true [(1 : ℚ)] =
          Except.ok (([(1 : ℚ)].map (fun x => x / (4 / 5 * 1))).map some) ∧
        npMax ([(1 : ℚ)].map (fun x => x / (4 / 5 * 1))) = some (5 / 4)) :=
  ⟨rfl, C1_amended_peak_is_1_25 [(1 : ℚ)] 1 rfl one_pos⟩

/-- Claim C8: for an all-zero nonempty playback buffer with normalisation
enabled, the normalisation divides by zero and every resulting sample is
non-finite (`none` in this embedding, standing for numpy's NaN), and the
pipeline completes without raising an error: `play_and_rec` returns
`Except.ok` and propagates the non-finite samples in its second component.
The hypothesis `hlen` is the duplex call's same-length contract (spec §4.3):
the recorded buffer has the length of the padded playback buffer. -/
theorem C8_silent_buffer_nonfinite (fs : ℕ) (xs : List ℚ) (fname : List Char)
    (rm_latency : Bool) (device : List (Option ℚ) → List ℚ) (isdir : IsdirPred)
    (hne : xs ≠ []) (hz : ∀ x ∈ xs, x = 0)
    (hdir : isdir (os_path_dirname fname) = true)
    (hlen : (device (npPad (List.replicate xs.length none)
        (halfRound fs) (some 0))).length = xs.length + halfRound fs) :
    normaliseStep true xs = Except.ok (List.replicate xs.length none) ∧
      ∃ r, play_and_rec fs xs fname true rm_latency device isdir = Except.ok r ∧
        r.ret.2.1 = List.replicate xs.length none := by
  have hmax : npMax xs = some 0 := npMax_all_zero xs hne hz
  have hnorm : normaliseStep true xs = Except.ok (List.replicate xs.length none) := by
    simp [normaliseStep, hmax, normaliseWith, npDiv, List.eq_replicate_iff]
  refine ⟨hnorm, ?_⟩
  have hrec_ne : device (npPad (List.replicate xs.length none)
      (halfRound fs) (some 0)) ≠ [] := by
    intro hdev
    rw [hdev] at hlen
    have hxs : 0 < xs.length := List.length_pos.mpr hne
    simp only [List.length_nil] at hlen
    omega
  obtain ⟨i, hi⟩ : ∃ i, npArgmaxGt (device (npPad (List.replicate xs.length none)
      (halfRound fs) (some 0))) = Except.ok i := by
    rw [npArgmaxGt, if_neg hrec_ne]
    exact ⟨_, rfl⟩
  obtain ⟨rt, hrt⟩ : ∃ rt, trimStep rm_latency (device (npPad
      (List.replicate xs.length none) (halfRound fs) (some 0))) = Except.ok rt := by
    cases rm_latency with
    | false => exact ⟨_, rfl⟩
    | true =>
      refine ⟨(device (npPad (List.replicate xs.length none)
        (halfRound fs) (some 0))).drop i, ?_⟩
      simp [trimStep, trimLatency, hi]
  refine ⟨⟨[(fname, fs, rt)], (rt, List.replicate xs.length none, fs)⟩, ?_, rfl⟩
  have hdir' : ensureOutputDir isdir fname = Except.ok () := by
    rw [ensureOutputDir, hdir]
    simp
  rw [play_and_rec_eq_of_normalise fs xs fname true rm_latency device isdir _ hnorm,
    hrt, hdir']

/-- Witness for C8 at the concrete silent buffer `[0]` with a filesystem in
which the output directory exists and a device honouring the same-length
contract (one recorded sample for the one-sample padded buffer). -/
theorem C8_witness :
    normaliseStep true [(0 : ℚ)] = Except.ok (List.replicate 1 none) ∧
      ∃ r, play_and_rec 1 [(0 : ℚ)] "d/f.wav".data true true
          (fun _ => [(1 : ℚ)]) (fun _ => true) = Except.ok r ∧
        r.ret.2.1 = List.replicate 1 none := by
  have h := C8_silent_buffer_nonfinite 1 [(0 : ℚ)] "d/f.wav".data true
    (fun _ => [(1 : ℚ)]) (fun _ => true) (by simp)
    (fun x hx => by simpa using hx) rfl rfl
  simpa using h

/-! ## Claims C10, C9 -/

/-- Claim C10: every successful invocation of `play_and_rec` returns a
three-element tuple whose first element is the recorded samples after the
optional latency trim, whose second element is the playback samples after
optional normalisation but before padding, and whose third element is the
sampling rate read from the input file. -/
theorem C10_return_tuple (fs : ℕ) (pb_samples : List ℚ) (rec_wav_fname : List Char)
    (normalise rm_latency : Bool) (device : List (Option ℚ) → List ℚ)
    (isdir : IsdirPred) (r : PRResult)
    (h : play_and_rec fs pb_samples rec_wav_fname normalise rm_latency device isdir =
      Except.ok r) :
    ∃ pb rec_trimmed, normaliseStep normalise pb_samples = Except.ok pb ∧
      trimStep rm_latency (device (npPad pb (halfRound fs) (some 0))) =
        Except.ok rec_trimmed ∧
      r.ret = (rec_trimmed, pb, fs) := by
  cases hn : normaliseStep normalise pb_samples with
  | error e =>
    rw [play_and_rec, hn] at h
    exact absurd h (by simp)
  | ok pb =>
    rw [play_and_rec_eq_of_normalise fs pb_samples rec_wav_fname normalise
      rm_latency device isdir pb hn] at h
    cases ht : trimStep rm_latency (device (npPad pb (halfRound fs) (some 0))) with
    | error e => rw [ht] at h; exact absurd h (by simp)
    | ok rt =>
      rw [ht] at h
      refine ⟨pb, rt, rfl, ht, ?_⟩
      cases hd : ensureOutputDir isdir rec_wav_fname with
      | error e => rw [hd] at h; exact absurd h (by simp)
      | ok u =>
        rw [hd] at h
        have := Except.ok.inj h
        rw [← this]

/-- Witness for C10 at concrete inputs (no normalisation, no trimming, a
device returning `[0]`, and an existing output directory). -/
theorem C10_witness :
    ∃ pb rec_trimmed, normaliseStep false [(1 : ℚ)] = Except.ok pb ∧
      trimStep false ((fun _ => [(0 : ℚ)]) (npPad pb (halfRound 2) (some 0))) =
        Except.ok rec_trimmed ∧
      (⟨[("d/f.wav".data, 2, [(0 : ℚ)])],
        ([(0 : ℚ)], [some (1 : ℚ)], 2)⟩ : PRResult).ret = (rec_trimmed, pb, 2) :=
  C10_return_tuple 2 [(1 : ℚ)] "d/f.wav".data false false (fun _ => [(0 : ℚ)])
    (fun _ => true) _ rfl

/-- Claim C9: for every output file path whose directory component is empty
(a bare filename), `play_and_rec` attempts `os.makedirs('')` — since
`os.path.isdir('')` is false — and fails with `FileNotFoundError` before the
WAV file is written (an `Except.error` result carries no written files),
instead of writing to the current working directory. -/
theorem C9_bare_filename_errors (fs : ℕ) (pb_samples : List ℚ)
    (pb : List (Option ℚ)) (rec_trimmed : List ℚ) (rec_wav_fname : List Char)
    (normalise rm_latency : Bool) (device : List (Option ℚ) → List ℚ)
    (isdir : IsdirPred)
    (hn : normaliseStep normalise pb_samples = Except.ok pb)
    (ht : trimStep rm_latency (device (npPad pb (halfRound fs) (some 0))) =
      Except.ok rec_trimmed)
    (hd : os_path_dirname rec_wav_fname = [])
    (hi : isdir [] = false) :
    play_and_rec fs pb_samples rec_wav_fname normalise rm_latency device isdir =
      Except.error "FileNotFoundError: [Errno 2] No such file or directory" := by
  have hdir : ensureOutputDir isdir rec_wav_fname =
      Except.error "FileNotFoundError: [Errno 2] No such file or directory" := by
    rw [ensureOutputDir, hd, hi]
    simp [makedirs]
  rw [play_and_rec_eq_of_normalise fs pb_samples rec_wav_fname normalise
    rm_latency device isdir pb hn, ht, hdir]

/-- Witness for C9 at the bare filename `f.wav` with a filesystem in which
no directory exists (no trimming, so the trim step trivially succeeds). -/
theorem C9_witness :
    play_and_rec 1 [(1 : ℚ)] "f.wav".data false false (fun _ => []) (fun _ => false) =
      Except.error "FileNotFoundError: [Errno 2] No such file or directory" :=
  C9_bare_filename_errors 1 [(1 : ℚ)] [some (1 : ℚ)] [] "f.wav".data false false
    (fun _ => []) (fun _ => false) rfl rfl (by decide) rfl

/-! ## `get_wavfiles` lemmas -/

lemma foldl_append_map (g : α → β) :
    ∀ (l : List α) (acc : List β),
      l.foldl (fun a f => a ++ [g f]) acc = acc ++ l.map g := by
  intro l
  induction l with
  | nil => intro acc; simp
  | cons b t ih => intro acc; simp [ih]

lemma get_wavfiles_foldl (input_dir output_dir : List Char) :
    ∀ (walk : List WalkEntry) (acc : List (List Char × List Char)),
      walk.foldl (fun acc e =>
          (e.filenames.filter isWavName).foldl (fun acc2 f =>
            acc2 ++ [mkPair input_dir output_dir e.root f]) acc) acc =
        acc ++ (walk.map (fun e =>
          (e.filenames.filter isWavName).map (mkPair input_dir output_dir e.root))).flatten := by
  intro walk
  induction walk with
  | nil => intro acc; simp
  | cons e w ih =>
    intro acc
    simp only [List.foldl_cons, List.map_cons, List.flatten_cons]
    rw [ih, foldl_append_map]
    simp [List.append_assoc]

lemma get_wavfiles_eq (input_dir output_dir : List Char) (walk : List WalkEntry) :
    get_wavfiles input_dir output_dir walk =
      (walk.map (fun e =>
        (e.filenames.filter isWavName).map (mkPair input_dir output_dir e.root))).flatten := by
  rw [get_wavfiles, get_wavfiles_foldl]
  simp

lemma mem_get_wavfiles_iff (input_dir output_dir : List Char)
    (walk : List WalkEntry) (p : List Char × List Char) :
    p ∈ get_wavfiles input_dir output_dir walk ↔
      ∃ e ∈ walk, ∃ f ∈ e.filenames, isWavName f = true ∧
        p = mkPair input_dir output_dir e.root f := by
  rw [get_wavfiles_eq]
  constructor
  · intro hp
    rcases List.mem_flatten.mp hp with ⟨l, hl, hpl⟩
    rcases List.mem_map.mp hl with ⟨e, he, rfl⟩
    rcases List.mem_map.mp hpl with ⟨f, hf, rfl⟩
    rcases List.mem_filter.mp hf with ⟨hf1, hwav⟩
    exact ⟨e, he, f, hf1, hwav, rfl⟩
  · rintro ⟨e, he, f, hf, hwav, rfl⟩
    refine List.mem_flatten.mpr ⟨_, List.mem_map.mpr ⟨e, he, rfl⟩, ?_⟩
    exact List.mem_map.mpr ⟨f, List.mem_filter.mpr ⟨hf, hwav⟩, rfl⟩

/-! ## Claims C7, C2 -/

/-- Claim C7: file discovery emits a pair exactly for the files (in the
walked tree) whose name ends in `.wav` or `.WAV`, case-sensitively (so
`.Wav` and non-WAV names are excluded): a pair is in the result iff it is
built from some walked file with one of those two exact suffixes. -/
theorem C7_wav_filter (input_dir output_dir : List Char)
    (walk : List WalkEntry) (p : List Char × List Char) :
    p ∈ get_wavfiles input_dir output_dir walk ↔
      ∃ e ∈ walk, ∃ f ∈ e.filenames,
        (pyEndswith f ".WAV".data || pyEndswith f ".wav".data) = true ∧
          p = mkPair input_dir output_dir e.root f :=
  mem_get_wavfiles_iff input_dir output_dir walk p

/-- Counterexample to claim C2: the claim predicts that only the leading
occurrence of the input root is replaced.  Python's `str.replace` replaces
every occurrence: walking input root `in` with a subdirectory also named
`in` (walk root `in/in`) containing `x.wav`, the code yields the output path
`out/out/x.wav`, not `out/in/x.wav` as the claim predicts. -/
theorem C2_counterexample :
    get_wavfiles "in".data "out".data
        [⟨"in/in".data, [], ["x.wav".data]⟩] =
      [("in/in/x.wav".data, "out/out/x.wav".data)] ∧
      ("out/out/x.wav".data : List Char) ≠ "out/in/x.wav".data := by
  decide

/-- Claim C2, amended: for every file discovered under the input root, the
output path in the emitted pair equals the file's directory path with every
non-overlapping occurrence of the input-root string (scanning left to right,
not only the leading prefix occurrence) textually replaced by the
output-root string, with the filename appended. -/
theorem C2_amended_replace_all (input_dir output_dir : List Char)
    (walk : List WalkEntry) (e : WalkEntry) (f : List Char)
    (he : e ∈ walk) (hf : f ∈ e.filenames) (hwav : isWavName f = true) :
    (os_path_join e.root f,
        os_path_join (pyReplace e.root input_dir output_dir) f) ∈
      get_wavfiles input_dir output_dir walk :=
  (mem_get_wavfiles_iff input_dir output_dir walk _).mpr
    ⟨e, he, f, hf, hwav, rfl⟩

/-- Witness for the amended C2 at a concrete one-directory walk. -/
theorem C2_witness :
    (os_path_join "in/a".data "x.wav".data,
        os_path_join (pyReplace "in/a".data "in".data "out".data) "x.wav".data) ∈
      get_wavfiles "in".data "out".data [⟨"in/a".data, [], ["x.wav".data]⟩] :=
  C2_amended_replace_all "in".data "out".data
    [⟨"in/a".data, [], ["x.wav".data]⟩] ⟨"in/a".data, [], ["x.wav".data]⟩
    "x.wav".data (by decide) (by decide) (by decide)

end PlayAndRec
